import Mathlib

/-!
Verification development for the mini-apt package-fetching client.

The Rust sources are shallowly embedded below:
  * `src/package/package_info.rs` — index fetch aggregation
    (`download_packages_file`), the stanza parser (`parse_packages_file`,
    `create_package_info`) and the resolver (`find_package`);
  * `src/package/downloader.rs` — `download_package` and
    `download_packages`;
  * `src/utils/url.rs` — `UrlBuilder::build_package_urls`;
  * `src/main.rs` — the per-mirror install loop.

Machine integers are modelled as `Nat` with explicit `% 2 ^ 32` /
`% 2 ^ 64` where the Rust code computes in `u32` / `u64`.  Network and
filesystem effects are modelled by explicit oracles and an explicit
file-system state threaded through the functions.  The MD5 digest that
the Rust code obtains from `md5::compute` (RFC 1321) is implemented in
full so that checksum comparisons can be evaluated on concrete bytes.
-/

namespace MiniApt

/-! ## Generic string helpers mirroring Rust std behaviour -/

/-- Rust `str::split(c)` on the character list of a string: split at every
occurrence of `c`, keeping empty pieces.  The result is never empty. -/
def splitChar (c : Char) : List Char → List (List Char)
  | [] => [[]]
  | x :: xs =>
    if x = c then [] :: splitChar c xs
    else
      match splitChar c xs with
      | [] => [[x]]
      | y :: ys => (x :: y) :: ys

/-- The suffix of `s` strictly after the last occurrence of `c`
(the whole list when `c` does not occur). -/
def afterLast (c : Char) (s : List Char) : List Char :=
  (s.reverse.takeWhile (fun x => x ≠ c)).reverse

/-- Rust `str::split_once(": ")`: split at the first occurrence of the
two-character pattern `": "`; `none` when the pattern does not occur. -/
def splitOnceColonSpace : List Char → Option (List Char × List Char)
  | [] => none
  | [_] => none
  | x :: y :: rest =>
    if x = ':' ∧ y = ' ' then some ([], rest)
    else
      match splitOnceColonSpace (y :: rest) with
      | none => none
      | some (a, b) => some (x :: a, b)

/-- Strip one trailing carriage return, as Rust `str::lines` does per line. -/
def stripCR (l : List Char) : List Char :=
  match l.reverse with
  | '\r' :: rest => rest.reverse
  | _ => l

/-- Rust `str::lines`: split on `'\n'`, drop the final empty piece produced
by a trailing newline (so `""` yields no lines), strip a trailing `'\r'`
from each line. -/
def rustLines (s : String) : List String :=
  let parts := splitChar '\n' s.data
  let parts :=
    match parts.reverse with
    | [] :: rest => rest.reverse
    | _ => parts
  parts.map (fun l => String.mk (stripCR l))

/-- Rust `u64::from_str` as used by `"...".parse::<u64>()`: an optional
leading `'+'`, then one or more ASCII digits, value below `2 ^ 64`. -/
def parseU64 (s : String) : Option Nat :=
  let cs := match s.data with
    | '+' :: rest => rest
    | l => l
  if cs = [] then none
  else if cs.all (fun c => c.isDigit) then
    let v := cs.foldl (fun a c => 10 * a + (c.toNat - 48)) 0
    if v < 2 ^ 64 then some v else none
  else none

/-- Membership-replacing insert of an association list, modelling
`HashMap::insert`: replace the value at an existing key in place,
otherwise append the new binding. -/
def insertA {α : Type} (m : List (String × α)) (k : String) (v : α) :
    List (String × α) :=
  match m with
  | [] => [(k, v)]
  | (k', v') :: rest =>
    if k' = k then (k', v) :: rest else (k', v') :: insertA rest k v

/-- Model of `HashMap::get` on the association-list representation. -/
def lookupA {α : Type} (m : List (String × α)) (k : String) : Option α :=
  match m with
  | [] => none
  | (k', v) :: rest => if k' = k then some v else lookupA rest k

/-- Rust `str::starts_with` for a literal pattern, on character lists. -/
def startsWithChars : List Char → List Char → Bool
  | [], _ => true
  | _ :: _, [] => false
  | p :: ps, c :: cs => p = c && startsWithChars ps cs

/-- Rust `str::starts_with` on strings. -/
def rustStartsWith (pat s : String) : Bool :=
  startsWithChars pat.data s.data

/-! ## MD5 (RFC 1321), the algorithm behind Rust `md5::compute`

Bytes are `Nat` values below 256; 32-bit arithmetic is `Nat` arithmetic
reduced `% 2 ^ 32`. -/

/-- Per-round left-rotation amounts. -/
def md5S : List Nat :=
  [7, 12, 17, 22, 7, 12, 17, 22, 7, 12, 17, 22, 7, 12, 17, 22,
   5, 9, 14, 20, 5, 9, 14, 20, 5, 9, 14, 20, 5, 9, 14, 20,
   4, 11, 16, 23, 4, 11, 16, 23, 4, 11, 16, 23, 4, 11, 16, 23,
   6, 10, 15, 21, 6, 10, 15, 21, 6, 10, 15, 21, 6, 10, 15, 21]

/-- Per-round additive constants `⌊2^32·|sin(i+1)|⌋`. -/
def md5K : List Nat :=
  [0xd76aa478, 0xe8c7b756, 0x242070db, 0xc1bdceee,
   0xf57c0faf, 0x4787c62a, 0xa8304613, 0xfd469501,
   0x698098d8, 0x8b44f7af, 0xffff5bb1, 0x895cd7be,
   0x6b901122, 0xfd987193, 0xa679438e, 0x49b40821,
   0xf61e2562, 0xc040b340, 0x265e5a51, 0xe9b6c7aa,
   0xd62f105d, 0x02441453, 0xd8a1e681, 0xe7d3fbc8,
   0x21e1cde6, 0xc33707d6, 0xf4d50d87, 0x455a14ed,
   0xa9e3e905, 0xfcefa3f8, 0x676f02d9, 0x8d2a4c8a,
   0xfffa3942, 0x8771f681, 0x6d9d6122, 0xfde5380c,
   0xa4beea44, 0x4bdecfa9, 0xf6bb4b60, 0xbebfbc70,
   0x289b7ec6, 0xeaa127fa, 0xd4ef3085, 0x04881d05,
   0xd9d4d039, 0xe6db99e5, 0x1fa27cf8, 0xc4ac5665,
   0xf4292244, 0x432aff97, 0xab9423a7, 0xfc93a039,
   0x655b59c3, 0x8f0ccc92, 0xffeff47d, 0x85845dd1,
   0x6fa87e4f, 0xfe2ce6e0, 0xa3014314, 0x4e0811a1,
   0xf7537e82, 0xbd3af235, 0x2ad7d2bb, 0xeb86d391]

/-- 32-bit bitwise complement. -/
def bnot32 (x : Nat) : Nat := Nat.xor x 0xffffffff

/-- 32-bit left rotation. -/
def rotl32 (x c : Nat) : Nat :=
  (Nat.lor (Nat.shiftLeft x c) (Nat.shiftRight x (32 - c))) % 2 ^ 32

/-- RFC 1321 padding: append `0x80`, zero bytes up to 56 mod 64, then the
original bit length modulo `2 ^ 64` as eight little-endian bytes. -/
def md5Pad (msg : List Nat) : List Nat :=
  let len := msg.length
  let zeros := (56 + 64 - ((len + 1) % 64)) % 64
  let bitLen := (len * 8) % 2 ^ 64
  msg ++ [0x80] ++ List.replicate zeros 0 ++
    (List.range 8).map (fun i => (Nat.shiftRight bitLen (8 * i)) % 256)

/-- Little-endian 32-bit word `j` of 64-byte block `k` of `msg`. -/
def md5Word (msg : List Nat) (k j : Nat) : Nat :=
  msg.getD (64 * k + 4 * j) 0 +
    256 * msg.getD (64 * k + 4 * j + 1) 0 +
    65536 * msg.getD (64 * k + 4 * j + 2) 0 +
    16777216 * msg.getD (64 * k + 4 * j + 3) 0

/-- One MD5 round `i` (0 ≤ i < 64) on state `(A, B, C, D)` over block `k`. -/
def md5Round (msg : List Nat) (k : Nat) (st : Nat × Nat × Nat × Nat)
    (i : Nat) : Nat × Nat × Nat × Nat :=
  let (a, b, c, d) := st
  let fg : Nat × Nat :=
    if i < 16 then
      (Nat.lor (Nat.land b c) (Nat.land (bnot32 b) d), i)
    else if i < 32 then
      (Nat.lor (Nat.land d b) (Nat.land (bnot32 d) c), (5 * i + 1) % 16)
    else if i < 48 then
      (Nat.xor (Nat.xor b c) d, (3 * i + 5) % 16)
    else
      (Nat.xor c (Nat.lor b (bnot32 d)), (7 * i) % 16)
  let f := (fg.1 + a + md5K.getD i 0 + md5Word msg k fg.2) % 2 ^ 32
  (d, (b + rotl32 f (md5S.getD i 0)) % 2 ^ 32, b, c)

/-- Process one 64-byte block into the running digest state. -/
def md5Block (msg : List Nat) (st : Nat × Nat × Nat × Nat) (k : Nat) :
    Nat × Nat × Nat × Nat :=
  let (a0, b0, c0, d0) := st
  let (a, b, c, d) := (List.range 64).foldl (md5Round msg k) (a0, b0, c0, d0)
  ((a0 + a) % 2 ^ 32, (b0 + b) % 2 ^ 32, (c0 + c) % 2 ^ 32, (d0 + d) % 2 ^ 32)

/-- The four little-endian bytes of a 32-bit word. -/
def wordBytes (x : Nat) : List Nat :=
  [x % 256, (x / 256) % 256, (x / 65536) % 256, (x / 16777216) % 256]

/-- The 16 digest bytes of a message given as a byte list. -/
def md5Bytes (msg : List Nat) : List Nat :=
  let padded := md5Pad msg
  let nBlocks := padded.length / 64
  let (a, b, c, d) := (List.range nBlocks).foldl (md5Block padded)
    (0x67452301, 0xefcdab89, 0x98badcfe, 0x10325476)
  wordBytes a ++ wordBytes b ++ wordBytes c ++ wordBytes d

/-- Lowercase hexadecimal digit for a value below 16. -/
def hexDigit (n : Nat) : Char :=
  match n with
  | 0 => '0' | 1 => '1' | 2 => '2' | 3 => '3'
  | 4 => '4' | 5 => '5' | 6 => '6' | 7 => '7'
  | 8 => '8' | 9 => '9' | 10 => 'a' | 11 => 'b'
  | 12 => 'c' | 13 => 'd' | 14 => 'e' | _ => 'f'

/-- The two lowercase hex characters of one byte, as printed by `{:02x}`. -/
def byteHex (b : Nat) : List Char := [hexDigit (b / 16), hexDigit (b % 16)]

/-- The 32-character lowercase hexadecimal rendering of the MD5 digest,
as the Rust code formats the result of `md5::compute` with the
lower-hex formatter. -/
def md5Hex (msg : List Nat) : String :=
  String.mk ((md5Bytes msg).flatMap byteHex)

/-! ## `src/package/mod.rs` — the `PackageInfo` record -/

structure PackageInfo where
  package : String
  version : String
  architecture : String
  filename : String
  size : Nat
  md5sum : String
  sha256 : String
  deriving Repr, DecidableEq

/-! ## `src/package/package_info.rs` — parser and resolver -/

/-- Rust `create_package_info`: build a `PackageInfo` from the accumulated
key-value map of one stanza; error when a required field is absent or
`Size` fails to parse as `u64`. -/
def create_package_info (package_name : String)
    (info : List (String × String)) : Except String PackageInfo :=
  match lookupA info "Version" with
  | none => .error "Missing Version"
  | some version =>
  match lookupA info "Architecture" with
  | none => .error "Missing Architecture"
  | some architecture =>
  match lookupA info "Filename" with
  | none => .error "Missing Filename"
  | some filename =>
  match lookupA info "Size" with
  | none => .error "Missing Size"
  | some sizeStr =>
  match parseU64 sizeStr with
  | none => .error "Invalid Size"
  | some size =>
  match lookupA info "MD5sum" with
  | none => .error "Missing MD5sum"
  | some md5sum =>
  match lookupA info "SHA256" with
  | none => .error "Missing SHA256"
  | some sha256 =>
    .ok ⟨package_name, version, architecture, filename, size, md5sum, sha256⟩

/-- The mutable state of `parse_packages_file`'s loop. -/
structure ParseState where
  packages : List (String × PackageInfo)
  currentPackage : Option String
  currentInfo : List (String × String)
  deriving Repr, DecidableEq

/-- Finalisation at a stanza boundary: when a `Package` name is pending,
insert the record if `create_package_info` succeeds, drop it otherwise. -/
def finalizeCurrent (packages : List (String × PackageInfo))
    (currentPackage : Option String) (currentInfo : List (String × String)) :
    List (String × PackageInfo) :=
  match currentPackage with
  | none => packages
  | some name =>
    match create_package_info name currentInfo with
    | .ok info => insertA packages name info
    | .error _ => packages

/-- One iteration of the `for line in content.lines()` loop of
`parse_packages_file`. -/
def parseLine (st : ParseState) (line : String) : ParseState :=
  if line = "" then
    { packages := finalizeCurrent st.packages st.currentPackage st.currentInfo,
      currentPackage := none, currentInfo := [] }
  else if startsWithChars [' '] line.data then st
  else
    match splitOnceColonSpace line.data with
    | none => st
    | some (k, v) =>
      let key := String.mk k
      let value := String.mk v
      { packages := st.packages,
        currentPackage :=
          if key = "Package" then some value else st.currentPackage,
        currentInfo := insertA st.currentInfo key value }

/-- Body of `parse_packages_file` on an explicit list of lines: fold the loop,
then finalise the last stanza at end of input. -/
def parsePackagesLines (lines : List String) : List (String × PackageInfo) :=
  let st := lines.foldl parseLine ⟨[], none, []⟩
  finalizeCurrent st.packages st.currentPackage st.currentInfo

/-- Rust `parse_packages_file(content)`: parse the index text into a map from
package name to record (`HashMap` modelled as an association list with
replace-on-existing-key insertion). -/
def parse_packages_file (content : String) : List (String × PackageInfo) :=
  parsePackagesLines (rustLines content)

/-- Rust `find_package`: `packages.get(name).filter(|p| p.architecture == arch)`. -/
def find_package (packages : List (String × PackageInfo)) (name arch : String) :
    Option PackageInfo :=
  match lookupA packages name with
  | none => none
  | some p => if p.architecture = arch then some p else none

/-- The index URL built for one component in `download_packages_file`. -/
def componentUrl (mirror component arch : String) : String :=
  mirror ++ "/dists/focal/" ++ component ++ "/binary-" ++ arch ++ "/Packages.gz"

/-- Rust `download_packages_file(mirror, arch)`.  The oracle `fetchGz url` is the
outcome of the HTTP GET plus gzip decompression for `url`: `some text` when
the request returned 2xx and the body decompressed, `none` for any
transport, status, body-read or decompression failure (each of which the
Rust code logs and skips).  Successful component texts are appended to the
buffer, each followed by `'\n'`; an empty buffer at the end is the error. -/
def download_packages_file (fetchGz : String → Option String)
    (mirror arch : String) : Except String String :=
  let all_content := ["main", "universe"].foldl
    (fun acc component =>
      match fetchGz (componentUrl mirror component arch) with
      | some content => acc ++ content ++ "\n"
      | none => acc) ""
  if all_content = "" then
    .error "Failed to download Packages.gz from any component"
  else
    .ok all_content

/-! ## `src/package/downloader.rs` — download engine

The filesystem is explicit state: a map from absolute file path to byte
content plus the set of directories created so far.  The network is an
oracle `http url`, collapsing `send()`, the 2xx status check and
`bytes()` into one outcome: `.ok body` when all three succeed, and
`.error e` carrying the error string the Rust code would produce from the
failing step.  Directory creation (`create_dir_all`) and the file write
are modelled as always succeeding. -/

structure FileSys where
  files : List (String × List Nat)
  dirs : List String
  deriving Repr, DecidableEq

structure World where
  currentDir : String
  http : String → Except String (List Nat)

/-- Rust `Path::is_absolute` on the string model of paths. -/
def isAbsolutePath (p : String) : Bool := startsWithChars ['/'] p.data

/-- Rust `PathBuf::join`: an absolute right operand replaces the left. -/
def joinPath (a b : String) : String :=
  if isAbsolutePath b then b else a ++ "/" ++ b

/-- Rust `download_package(url, root_dir, expected_md5)`.  Returns the Rust
function's `Result` together with the filesystem after the call. -/
def download_package (w : World) (fs : FileSys)
    (url root_dir expected_md5 : String) : Except String Unit × FileSys :=
  let absolute_root_dir :=
    if isAbsolutePath root_dir then root_dir else joinPath w.currentDir root_dir
  let fs := { fs with dirs := absolute_root_dir :: fs.dirs }
  match w.http url with
  | .error e => (.error e, fs)
  | .ok content =>
    match (splitChar '/' url.data).getLast? with
    | none => (.error "Invalid URL", fs)
    | some package_name =>
      let package_path := joinPath absolute_root_dir (String.mk package_name)
      let actual_md5 := md5Hex content
      if actual_md5 ≠ expected_md5 then
        (.error ("MD5 checksum mismatch. Expected: " ++ expected_md5 ++
          ", got: " ++ actual_md5), fs)
      else
        (.ok (), { fs with files := insertA fs.files package_path content })

/-- The fail-fast collection semantics of `futures::future::try_join_all`:
each download is one atomic step of the embedding, futures are polled in
order, and the first `Err` is returned immediately while the remaining
futures are dropped (cancelled) without running. -/
def tryJoinAllDownloads (w : World) (fs : FileSys) :
    List (String × String × String) → Except String Unit × FileSys
  | [] => (.ok (), fs)
  | (url, root_dir, md5) :: rest =>
    match download_package w fs url root_dir md5 with
    | (.error e, fs') => (.error e, fs')
    | (.ok _, fs') => tryJoinAllDownloads w fs' rest

/-- Rust `download_packages(downloads)`: `try_join_all` over the per-item
`download_package` futures, wrapping the surfaced error message. -/
def download_packages (w : World) (fs : FileSys)
    (downloads : List (String × String × String)) :
    Except String Unit × FileSys :=
  match tryJoinAllDownloads w fs downloads with
  | (.ok _, fs') => (.ok (), fs')
  | (.error e, fs') => (.error ("Failed to download packages: " ++ e), fs')

/-! ## `src/config.rs` and `src/utils/url.rs` -/

structure InstallConfig where
  package_name : String
  mirrors : List String
  architecture : String
  root_dir : String
  deriving Repr, DecidableEq

/-- The gzip-decompressing index fetch is part of the world: `fetchGz url`
is `some text` when the GET succeeded with 2xx and the body decompressed. -/
structure NetWorld extends World where
  fetchGz : String → Option String

/-- Rust `UrlBuilder::build_package_urls(config, mirror)`: the special-cased
fixed-URL NDK branch, otherwise index fetch → parse → resolve → download.
Returns the Rust `bool` together with the filesystem after the call. -/
def build_package_urls (w : NetWorld) (fs : FileSys) (config : InstallConfig)
    (mirror : String) : Bool × FileSys :=
  if rustStartsWith "android-ndk" config.package_name then
    let downloads :=
      [("https://dl.google.com/android/repository/android-ndk-r26b-darwin.dmg",
         config.root_dir, "dummy"),
       ("https://dl.google.com/android/repository/android-ndk-r26b-darwin.zip",
         config.root_dir, "dummy")]
    match download_packages w.toWorld fs downloads with
    | (.error _, fs') => (false, fs')
    | (.ok _, fs') => (true, fs')
  else
    match download_packages_file w.fetchGz mirror config.architecture with
    | .error _ => (false, fs)
    | .ok packages_content =>
      let packages := parse_packages_file packages_content
      match find_package packages config.package_name config.architecture with
      | none => (false, fs)
      | some package_info =>
        let url := mirror ++ "/" ++ package_info.filename
        match download_package w.toWorld fs url config.root_dir
            package_info.md5sum with
        | (.error _, fs') => (false, fs')
        | (.ok _, fs') => (true, fs')

/-! ## `src/main.rs` — the per-mirror install loop

`for mirror in &config.mirrors { match build_package_urls(..) { true =>
break, false => continue } }`.  The embedding returns, besides the final
filesystem, whether some mirror succeeded and the list of mirrors actually
attempted, in order, as the observable trace of the loop. -/

def installLoop (w : NetWorld) (fs : FileSys) (config : InstallConfig) :
    List String → Bool × List String × FileSys
  | [] => (false, [], fs)
  | mirror :: rest =>
    match build_package_urls w fs config mirror with
    | (true, fs') => (true, [mirror], fs')
    | (false, fs') =>
      match installLoop w fs' config rest with
      | (ok, tried, fs'') => (ok, mirror :: tried, fs'')

/-! ## Spec-side predicates -/

/-- ASCII lowercase of a character (spec-side notion for C1). -/
def asciiLower (c : Char) : Char :=
  if 'A' ≤ c ∧ c ≤ 'Z' then Char.ofNat (c.toNat + 32) else c

/-- Case-insensitive ASCII equality of strings, the comparison the spec
says `download_package` performs on hex digests. -/
def eqIgnoreAsciiCase (a b : String) : Bool :=
  a.data.map asciiLower = b.data.map asciiLower

instance {α β : Type} [DecidableEq α] [DecidableEq β] :
    DecidableEq (Except α β) := fun a b =>
  match a, b with
  | .ok x, .ok y =>
    if h : x = y then isTrue (by rw [h]) else
      isFalse (fun hc => h (by cases hc; rfl))
  | .error x, .error y =>
    if h : x = y then isTrue (by rw [h]) else
      isFalse (fun hc => h (by cases hc; rfl))
  | .ok _, .error _ => isFalse (fun hc => by cases hc)
  | .error _, .ok _ => isFalse (fun hc => by cases hc)

/-! ## Stanza-level view of the parser input (for C5/C6)

A stanza is a list of key-value pairs; it is rendered as the lines
`key ++ ": " ++ value`, and stanzas are joined with a blank line after
each stanza. -/

abbrev Stanza : Type := List (String × String)

/-- The lines of one rendered stanza. -/
def renderStanza (s : Stanza) : List String :=
  s.map (fun kv => kv.1 ++ ": " ++ kv.2)

/-- The lines of a rendered stanza sequence: each stanza's lines followed
by one blank separator line. -/
def stanzasLines : List Stanza → List String
  | [] => []
  | s :: rest => (renderStanza s ++ [""]) ++ stanzasLines rest

/-- Last value bound to key `k` in a stanza, starting from `acc`
(the latest `Key: Value` line wins, as in the parser's accumulation). -/
def lastValFrom (acc : Option String) (s : Stanza) (k : String) :
    Option String :=
  s.foldl (fun a kv => if kv.1 = k then some kv.2 else a) acc

/-- Last value bound to key `k` in a stanza. -/
def lastVal (s : Stanza) (k : String) : Option String := lastValFrom none s k

/-- The parser's `current_info` map after inserting every pair of `s`
into `m`. -/
def infoAfter (m : List (String × String)) (s : Stanza) :
    List (String × String) :=
  s.foldl (fun i kv => insertA i kv.1 kv.2) m

/-- A key renders to a line the parser reads back intact: no `':'` inside
the key and no leading blank character. -/
def keyOK (k : String) : Bool :=
  !(k.data.contains ':') && !(k.data.head? == some ' ')

/-- Every key of the stanza is renderable; values are unconstrained. -/
def stanzaOK (s : Stanza) : Bool := s.all (fun kv => keyOK kv.1)

/-- The stanza declares a `Package` name. -/
def hasName (s : Stanza) : Bool := (lastVal s "Package").isSome

/-- The stanza carries the six further required fields with `Size`
parseable as `u64`. -/
def requiredOK (s : Stanza) : Bool :=
  (lastVal s "Version").isSome && (lastVal s "Architecture").isSome &&
  (lastVal s "Filename").isSome &&
  (match lastVal s "Size" with
   | some t => (parseU64 t).isSome
   | none => false) &&
  (lastVal s "MD5sum").isSome && (lastVal s "SHA256").isSome

/-- The parser emits a record for the stanza. -/
def emits (s : Stanza) : Bool := hasName s && requiredOK s

/-- The stanza's declared package name (empty when absent). -/
def nameOf (s : Stanza) : String := (lastVal s "Package").getD ""

/-- The record a well-formed stanza denotes, field by field. -/
def recordOf (s : Stanza) : PackageInfo where
  package := (lastVal s "Package").getD ""
  version := (lastVal s "Version").getD ""
  architecture := (lastVal s "Architecture").getD ""
  filename := (lastVal s "Filename").getD ""
  size := ((lastVal s "Size").bind parseU64).getD 0
  md5sum := (lastVal s "MD5sum").getD ""
  sha256 := (lastVal s "SHA256").getD ""

/-- Net effect of one whole stanza (its lines plus the separating blank
line) on the accumulated package map. -/
def finalizeStanza (pkgs : List (String × PackageInfo)) (s : Stanza) :
    List (String × PackageInfo) :=
  finalizeCurrent pkgs (lastValFrom none s "Package") (infoAfter [] s)

/-! ## Concrete fixtures used to instantiate the theorems -/

/-- The empty filesystem. -/
def fs0 : FileSys := ⟨[], []⟩

/-- A world whose every HTTP GET succeeds with an empty body. -/
def wOkEmpty : World := ⟨"/cwd", fun _ => .ok []⟩

/-- The MD5 digest of the empty byte sequence, in lowercase hex. -/
def emptyMd5 : String := "d41d8cd98f00b204e9800998ecf8427e"

/-- A concrete record for resolver tests. -/
def fooRec : PackageInfo :=
  ⟨"foo", "1.0", "arm64", "pool/f/foo.deb", 10, emptyMd5, "e3b0c4"⟩

/-- A well-formed stanza declaring `foo` version 1.0. -/
def stFoo1 : Stanza :=
  [("Package", "foo"), ("Version", "1.0"), ("Architecture", "arm64"),
   ("Filename", "pool/f/foo.deb"), ("Size", "10"),
   ("MD5sum", "d41d8cd98f00b204e9800998ecf8427e"), ("SHA256", "e3b0c4")]

/-- A well-formed stanza declaring `foo` version 2.0. -/
def stFoo2 : Stanza :=
  [("Package", "foo"), ("Version", "2.0"), ("Architecture", "arm64"),
   ("Filename", "pool/f/foo2.deb"), ("Size", "11"),
   ("MD5sum", "aa"), ("SHA256", "bb")]

/-- A well-formed stanza declaring `bar`. -/
def stBar : Stanza :=
  [("Package", "bar"), ("Version", "3.0"), ("Architecture", "amd64"),
   ("Filename", "pool/b/bar.deb"), ("Size", "7"),
   ("MD5sum", "cc"), ("SHA256", "dd")]

/-- A malformed stanza: has a name but misses the other required fields. -/
def stBad : Stanza := [("Package", "broken"), ("Version", "1")]

/-- The index text the C8 scenario's second mirror serves for `main`. -/
def idxText : String :=
  "Package: foo\nVersion: 1.0\nArchitecture: arm64\n" ++
  "Filename: pool/f/foo.deb\nSize: 10\n" ++
  "MD5sum: d41d8cd98f00b204e9800998ecf8427e\nSHA256: e3b0c4\n"

/-- C8 scenario world: mirror 1's index fetch fails on both components,
mirror 2 serves `main`, and the artifact download from mirror 2 succeeds
(empty body, matching digest). -/
def w8 : NetWorld where
  currentDir := "/cwd"
  http := fun u =>
    if u = "http://m2/pool/f/foo.deb" then .ok [] else .error "connection refused"
  fetchGz := fun u =>
    if u = componentUrl "http://m2" "main" "arm64" then some idxText else none

/-- C8 scenario install request. -/
def config8 : InstallConfig :=
  ⟨"foo", ["http://m1", "http://m2", "http://m3"], "arm64", "/tmp"⟩

/-- A world where nothing on the network works. -/
def wDead : NetWorld :=
  ⟨⟨"/cwd", fun _ => .error "connection refused"⟩, fun _ => none⟩

/-- An NDK install request (C9). -/
def configNdk : InstallConfig :=
  ⟨"android-ndk-r26b", ["http://m1"], "arm64", "/tmp"⟩

end MiniApt

namespace MiniApt

/-! ## Helper lemmas -/

theorem splitChar_ne_nil (c : Char) (s : List Char) : splitChar c s ≠ [] := by
  induction s with
  | nil => simp [splitChar]
  | cons x xs ih =>
    rw [splitChar]
    by_cases hx : x = c
    · simp [hx]
    · simp only [hx, if_false]
      cases h : splitChar c xs with
      | nil => simp
      | cons y ys => simp

theorem takeWhile_append_last_false {α : Type} (p : α → Bool) (l : List α)
    (a : α) (ha : p a = false) :
    (l ++ [a]).takeWhile p = l.takeWhile p := by
  induction l with
  | nil => simp [List.takeWhile, ha]
  | cons x xs ih =>
    by_cases hx : p x
    · simp [List.takeWhile_cons, hx, ih]
    · simp only [Bool.not_eq_true] at hx
      simp [List.takeWhile_cons, hx]

theorem takeWhile_append_of_false_mem {α : Type} (p : α → Bool) (l l₂ : List α)
    (h : ∃ a ∈ l, p a = false) :
    (l ++ l₂).takeWhile p = l.takeWhile p := by
  induction l with
  | nil =>
    obtain ⟨a, ha, _⟩ := h
    exact absurd ha (List.not_mem_nil a)
  | cons x xs ih =>
    by_cases hx : p x
    · obtain ⟨a, ha, hpa⟩ := h
      rcases List.mem_cons.mp ha with rfl | ha'
      · rw [hx] at hpa; cases hpa
      · simp [List.takeWhile_cons, hx, ih ⟨a, ha', hpa⟩]
    · simp only [Bool.not_eq_true] at hx
      simp [List.takeWhile_cons, hx]

theorem splitChar_no_occ (c : Char) (s : List Char) (h : c ∉ s) :
    splitChar c s = [s] := by
  induction s with
  | nil => simp [splitChar]
  | cons x xs ih =>
    have hx : ¬x = c := fun hc => h (hc ▸ List.mem_cons_self x xs)
    have hxs : c ∉ xs := fun hc => h (List.mem_cons_of_mem x hc)
    rw [splitChar]
    simp only [hx, if_false, ih hxs]

theorem splitChar_length (c : Char) (s : List Char) :
    (splitChar c s).length = s.countP (fun x => x == c) + 1 := by
  induction s with
  | nil => simp [splitChar]
  | cons x xs ih =>
    rw [splitChar]
    by_cases hx : x = c
    · simp [hx, List.countP_cons, ih]
    · simp only [hx, if_false]
      cases h : splitChar c xs with
      | nil => exact absurd h (splitChar_ne_nil c xs)
      | cons y ys =>
        rw [h] at ih
        simp only [List.length_cons] at ih ⊢
        simp [List.countP_cons, hx, ih]

theorem splitChar_getLast (c : Char) (s : List Char) :
    (splitChar c s).getLast? = some (afterLast c s) := by
  induction s with
  | nil => simp [splitChar, afterLast]
  | cons x xs ih =>
    rw [splitChar]
    by_cases hx : x = c
    · subst hx
      simp only [if_true]
      cases h : splitChar x xs with
      | nil => exact absurd h (splitChar_ne_nil x xs)
      | cons y ys =>
        rw [h] at ih
        rw [List.getLast?_cons_cons, ih]
        congr 1
        unfold afterLast
        rw [List.reverse_cons,
          takeWhile_append_last_false _ _ _ (by simp)]
    · simp only [hx, if_false]
      cases h : splitChar c xs with
      | nil => exact absurd h (splitChar_ne_nil c xs)
      | cons y ys =>
        rw [h] at ih
        cases ys with
        | nil =>
          have hlen := splitChar_length c xs
          rw [h] at hlen
          simp only [List.length_cons, List.length_nil] at hlen
          have hcount : xs.countP (fun z => z == c) = 0 := by omega
          have hnotin : c ∉ xs := by
            intro hc
            have : 0 < xs.countP (fun z => z == c) :=
              List.countP_pos_iff.mpr ⟨c, hc, by simp⟩
            omega
          have hy : y = xs := by
            have := splitChar_no_occ c xs hnotin
            rw [h] at this
            exact (List.cons.injEq _ _ _ _ ▸ this).1
          rw [hy]
          simp only [List.getLast?_singleton]
          unfold afterLast
          rw [List.reverse_cons]
          have hall : List.takeWhile (fun z => decide (¬ z = c))
              (xs.reverse ++ [x]) = xs.reverse ++ [x] := by
            rw [List.takeWhile_eq_self_iff]
            intro a ha
            rcases List.mem_append.mp ha with ha' | ha'
            · have : a ∈ xs := List.mem_reverse.mp ha'
              simp only [decide_eq_true_eq]
              exact fun hc => hnotin (hc ▸ this)
            · simp only [List.mem_singleton] at ha'
              subst ha'
              simp [hx]
          rw [hall, List.reverse_append, List.reverse_reverse]
          rfl
        | cons y' ys' =>
          rw [List.getLast?_cons_cons, ← List.getLast?_cons_cons (a := y)]
          rw [ih]
          congr 1
          have hlen := splitChar_length c xs
          rw [h] at hlen
          simp only [List.length_cons] at hlen
          have hcin : c ∈ xs := by
            rcases List.countP_pos_iff (p := fun z => z == c) (l := xs) |>.mp
              (by omega) with ⟨a, ha, hpa⟩
            simp only [beq_iff_eq] at hpa
            exact hpa ▸ ha
          unfold afterLast
          rw [List.reverse_cons,
            takeWhile_append_of_false_mem _ _ _
              ⟨c, List.mem_reverse.mpr hcin, by simp⟩]

theorem str_empty_append (s : String) : "" ++ s = s := rfl

theorem str_append_newline_ne_empty (s : String) : s ++ "\n" ≠ "" := by
  intro h
  have hl := congrArg String.length h
  rw [String.length_append] at hl
  simp at hl
  exact absurd hl.2 (by decide)

/-! ## C10 — the URL's last path segment always exists -/

/-- Claim C10: the filename derivation `url.split('/').last()` in
`download_package` returns `Some` for every string, so the `"Invalid URL"`
error branch is unreachable; the derived filename is the suffix after the
last `'/'`, which is the whole URL when it contains no `'/'` and the empty
string when the URL ends with `'/'`. -/
theorem C10_url_last_segment_total (url : String) :
    (splitChar '/' url.data).getLast? = some (afterLast '/' url.data) ∧
    ('/' ∉ url.data → (splitChar '/' url.data).getLast? = some url.data) ∧
    (∀ pre : List Char, url.data = pre ++ ['/'] →
      (splitChar '/' url.data).getLast? = some []) := by
  refine ⟨splitChar_getLast _ _, ?_, ?_⟩
  · intro h
    rw [splitChar_no_occ _ _ h]
    simp
  · intro pre h
    rw [splitChar_getLast, h]
    unfold afterLast
    rw [List.reverse_append]
    simp [List.takeWhile]

/-- C10 witness at concrete URLs. -/
theorem C10_url_last_segment_total_witness :
    (splitChar '/' "http://x/".data).getLast? = some [] ∧
    (splitChar '/' "nohost".data).getLast? = some "nohost".data :=
  ⟨(C10_url_last_segment_total "http://x/").2.2 "http://x".data (by decide),
   (C10_url_last_segment_total "nohost").2.1 (by decide)⟩

/-! ## C4 — the resolver filters by architecture -/

/-- Claim C4: `find_package` returns a record only when its
`architecture` equals the requested one, and returns nothing when the name
is absent or the stored record has a different architecture. -/
theorem C4_find_package_architecture_filter
    (packages : List (String × PackageInfo)) (name arch : String) :
    (∀ r, find_package packages name arch = some r →
      r.architecture = arch ∧ lookupA packages name = some r) ∧
    (lookupA packages name = none → find_package packages name arch = none) ∧
    (∀ r, lookupA packages name = some r → r.architecture ≠ arch →
      find_package packages name arch = none) := by
  unfold find_package
  cases h : lookupA packages name with
  | none => simp
  | some p =>
    by_cases ha : p.architecture = arch
    · simp only [ha, if_true]
      refine ⟨?_, ?_, ?_⟩
      · rintro r hr
        cases hr
        exact ⟨ha, rfl⟩
      · rintro ⟨⟩
      · rintro r hr hne
        cases hr
        exact absurd ha hne
    · simp [ha]

/-- C4 witness: a present record of the wrong architecture and an absent
name both resolve to nothing. -/
theorem C4_find_package_architecture_filter_witness :
    find_package [("foo", fooRec)] "foo" "amd64" = none ∧
    find_package [("foo", fooRec)] "bar" "arm64" = none :=
  ⟨(C4_find_package_architecture_filter [("foo", fooRec)] "foo" "amd64").2.2
      fooRec (by decide) (by decide),
   (C4_find_package_architecture_filter [("foo", fooRec)] "bar" "arm64").2.1
      (by decide)⟩

/-! ## C7 — index fetch aggregation -/

/-- Claim C7: `download_packages_file` fails with the index-unavailable
error exactly when neither the `main` nor the `universe` component could be
retrieved, and otherwise returns the successful components' texts
concatenated in component order, each followed by a `'\n'` boundary. -/
theorem C7_index_aggregation (fetchGz : String → Option String)
    (mirror arch : String) :
    (download_packages_file fetchGz mirror arch =
        .error "Failed to download Packages.gz from any component" ↔
      fetchGz (componentUrl mirror "main" arch) = none ∧
      fetchGz (componentUrl mirror "universe" arch) = none) ∧
    (∀ t, fetchGz (componentUrl mirror "main" arch) = some t →
      fetchGz (componentUrl mirror "universe" arch) = none →
      download_packages_file fetchGz mirror arch = .ok (t ++ "\n")) ∧
    (∀ u, fetchGz (componentUrl mirror "main" arch) = none →
      fetchGz (componentUrl mirror "universe" arch) = some u →
      download_packages_file fetchGz mirror arch = .ok (u ++ "\n")) ∧
    (∀ t u, fetchGz (componentUrl mirror "main" arch) = some t →
      fetchGz (componentUrl mirror "universe" arch) = some u →
      download_packages_file fetchGz mirror arch =
        .ok (t ++ "\n" ++ u ++ "\n")) := by
  unfold download_packages_file
  cases hm : fetchGz (componentUrl mirror "main" arch) with
  | none =>
    cases hu : fetchGz (componentUrl mirror "universe" arch) with
    | none => simp [hm, hu]
    | some u =>
      simp [hm, hu, str_empty_append, str_append_newline_ne_empty u]
  | some t =>
    cases hu : fetchGz (componentUrl mirror "universe" arch) with
    | none =>
      simp [hm, hu, str_empty_append, str_append_newline_ne_empty t]
    | some u =>
      simp [hm, hu, str_empty_append,
        str_append_newline_ne_empty (t ++ "\n" ++ u)]

/-- C7 witness: with only `main` available the fetch returns that
component's text plus the boundary. -/
theorem C7_index_aggregation_witness :
    download_packages_file
      (fun u => if u = componentUrl "http://m" "main" "arm64"
        then some "T" else none) "http://m" "arm64" = .ok ("T" ++ "\n") :=
  (C7_index_aggregation
      (fun u => if u = componentUrl "http://m" "main" "arm64"
        then some "T" else none) "http://m" "arm64").2.1
    "T" (by decide) (by decide)

/-! ## Download engine lemmas -/

/-- On a successful GET whose body hashes differently from the expected
digest, `download_package` returns the mismatch error and leaves the file
map untouched (only the directory creation has happened). -/
theorem download_package_mismatch (w : World) (fs : FileSys)
    (url root expected : String) (body : List Nat)
    (hhttp : w.http url = .ok body) (hne : md5Hex body ≠ expected) :
    download_package w fs url root expected =
      (.error ("MD5 checksum mismatch. Expected: " ++ expected ++
        ", got: " ++ md5Hex body),
       { fs with dirs :=
          (if isAbsolutePath root then root else joinPath w.currentDir root)
            :: fs.dirs }) := by
  simp only [download_package, hhttp, splitChar_getLast]
  rw [if_pos hne]

/-- On a successful GET whose body hashes to exactly the expected digest,
`download_package` succeeds and writes the body to the destination path. -/
theorem download_package_match (w : World) (fs : FileSys)
    (url root expected : String) (body : List Nat)
    (hhttp : w.http url = .ok body) (heq : md5Hex body = expected) :
    download_package w fs url root expected =
      (.ok (),
       { files := insertA fs.files
          (joinPath
            (if isAbsolutePath root then root else joinPath w.currentDir root)
            (String.mk (afterLast '/' url.data))) body,
         dirs :=
          (if isAbsolutePath root then root else joinPath w.currentDir root)
            :: fs.dirs }) := by
  have hnn : ¬md5Hex body ≠ expected := fun hc => hc heq
  simp only [download_package, hhttp, splitChar_getLast, hnn, if_false]

/-! ## C3 — digest mismatch fails and writes nothing -/

/-- Claim C3: whenever the computed MD5 digest of the response body
differs from the expected digest, `download_package` returns the
checksum-mismatch error and the file map is unchanged — verification
happens strictly before any file write. -/
theorem C3_mismatch_no_write (w : World) (fs : FileSys)
    (url root expected : String) (body : List Nat)
    (hhttp : w.http url = .ok body) (hne : md5Hex body ≠ expected) :
    (download_package w fs url root expected).1 =
      .error ("MD5 checksum mismatch. Expected: " ++ expected ++
        ", got: " ++ md5Hex body) ∧
    (download_package w fs url root expected).2.files = fs.files := by
  rw [download_package_mismatch w fs url root expected body hhttp hne]
  exact ⟨rfl, rfl⟩

/-- C3 witness: empty body, wrong digest `"bad"`. -/
theorem C3_mismatch_no_write_witness :
    wOkEmpty.http "http://x/p.deb" = .ok [] ∧
    md5Hex [] ≠ "bad" ∧
    (download_package wOkEmpty fs0 "http://x/p.deb" "/tmp" "bad").1 =
      .error ("MD5 checksum mismatch. Expected: " ++ "bad" ++
        ", got: " ++ md5Hex []) ∧
    (download_package wOkEmpty fs0 "http://x/p.deb" "/tmp" "bad").2.files =
      fs0.files :=
  ⟨rfl, by decide,
   (C3_mismatch_no_write wOkEmpty fs0 "http://x/p.deb" "/tmp" "bad" []
      rfl (by decide)).1,
   (C3_mismatch_no_write wOkEmpty fs0 "http://x/p.deb" "/tmp" "bad" []
      rfl (by decide)).2⟩

/-! ## C1 — the digest comparison is exact, not case-insensitive -/

/-- Claim C1 (amended): `download_package` compares the computed lowercase
hex digest with `expected_md5` by exact string equality; verification
succeeds precisely when `expected_md5` equals the lowercase digest
verbatim, and only then is the file written. -/
theorem C1_md5_comparison_exact (w : World) (fs : FileSys)
    (url root expected : String) (body : List Nat)
    (hhttp : w.http url = .ok body) :
    ((download_package w fs url root expected).1 = .ok () ↔
      expected = md5Hex body) ∧
    (expected = md5Hex body →
      (download_package w fs url root expected).2.files =
        insertA fs.files
          (joinPath
            (if isAbsolutePath root then root else joinPath w.currentDir root)
            (String.mk (afterLast '/' url.data))) body) := by
  by_cases he : md5Hex body = expected
  · rw [download_package_match w fs url root expected body hhttp he]
    exact ⟨by simp [he.symm], fun _ => rfl⟩
  · rw [download_package_mismatch w fs url root expected body hhttp he]
    constructor
    · constructor
      · rintro ⟨⟩
      · intro hx
        exact absurd hx.symm he
    · intro hx
      exact absurd hx.symm he

/-- C1 witness: the exact lowercase digest is accepted and the file is
written. -/
theorem C1_md5_comparison_exact_witness :
    wOkEmpty.http "http://x/p.deb" = .ok [] ∧
    (download_package wOkEmpty fs0 "http://x/p.deb" "/tmp" emptyMd5).1 =
      .ok () :=
  ⟨rfl,
   (C1_md5_comparison_exact wOkEmpty fs0 "http://x/p.deb" "/tmp" emptyMd5 []
      rfl).1.mpr (by decide)⟩

/-- C1 counterexample: the uppercase rendering of the correct digest is
equal to the computed digest up to ASCII case, yet verification fails with
a checksum mismatch and no file is written — refuting the claimed
case-insensitive comparison. -/
theorem C1_uppercase_digest_rejected :
    eqIgnoreAsciiCase "D41D8CD98F00B204E9800998ECF8427E" (md5Hex []) = true ∧
    wOkEmpty.http "http://x/p.deb" = .ok [] ∧
    (download_package wOkEmpty fs0 "http://x/p.deb" "/tmp"
        "D41D8CD98F00B204E9800998ECF8427E").1 =
      .error ("MD5 checksum mismatch. Expected: " ++
        "D41D8CD98F00B204E9800998ECF8427E" ++ ", got: " ++ md5Hex []) ∧
    (download_package wOkEmpty fs0 "http://x/p.deb" "/tmp"
        "D41D8CD98F00B204E9800998ECF8427E").2.files = [] := by
  have hmm := download_package_mismatch wOkEmpty fs0 "http://x/p.deb" "/tmp"
    "D41D8CD98F00B204E9800998ECF8427E" [] rfl (by decide)
  rw [hmm]
  exact ⟨by decide, rfl, rfl, rfl⟩

/-! ## Digest shape lemmas (for C9) -/

theorem md5Bytes_length (msg : List Nat) : (md5Bytes msg).length = 16 := by
  have h : ∀ q : Nat × Nat × Nat × Nat,
      (match q with
       | (a, b, c, d) =>
         wordBytes a ++ wordBytes b ++ wordBytes c ++ wordBytes d).length =
        16 := by
    rintro ⟨a, b, c, d⟩
    simp [wordBytes]
  simpa only [md5Bytes] using h _

theorem flatMap_byteHex_length (l : List Nat) :
    (l.flatMap byteHex).length = 2 * l.length := by
  induction l with
  | nil => rfl
  | cons b bs ih =>
    simp only [List.flatMap_cons, List.length_append, ih, byteHex]
    simp
    omega

theorem md5Hex_length (msg : List Nat) : (md5Hex msg).length = 32 := by
  show ((md5Bytes msg).flatMap byteHex).length = 32
  rw [flatMap_byteHex_length, md5Bytes_length]

theorem md5Hex_ne_dummy (msg : List Nat) : md5Hex msg ≠ "dummy" := by
  intro h
  have h32 := md5Hex_length msg
  rw [h] at h32
  exact absurd h32 (by decide)

/-- With the expected digest `"dummy"`, `download_package` always fails:
either the GET fails, or the computed 32-character hex digest cannot equal
`"dummy"`. -/
theorem download_package_dummy_error (w : World) (fs : FileSys)
    (url root : String) :
    ∃ e fsx, download_package w fs url root "dummy" = (.error e, fsx) := by
  cases hh : w.http url with
  | error e =>
    refine ⟨e, { fs with dirs :=
      (if isAbsolutePath root then root else joinPath w.currentDir root)
        :: fs.dirs }, ?_⟩
    simp only [download_package, hh]
  | ok body =>
    refine ⟨"MD5 checksum mismatch. Expected: dummy, got: " ++ md5Hex body,
      { fs with dirs :=
        (if isAbsolutePath root then root else joinPath w.currentDir root)
          :: fs.dirs }, ?_⟩
    exact download_package_mismatch w fs url root "dummy" body hh
      (md5Hex_ne_dummy body)

/-! ## C9 — the fixed-URL NDK path can never succeed -/

/-- Claim C9: for any install request whose package name starts with
`android-ndk`, `build_package_urls` dispatches the two fixed downloads
with expected digest `"dummy"`; since the computed digest is always a
32-character hex string it never equals `"dummy"`, so the branch always
reports failure, whatever the network does. -/
theorem C9_ndk_path_never_succeeds (w : NetWorld) (fs : FileSys)
    (config : InstallConfig) (mirror : String)
    (h : rustStartsWith "android-ndk" config.package_name = true) :
    (build_package_urls w fs config mirror).1 = false := by
  obtain ⟨e, fsx, hdp⟩ := download_package_dummy_error w.toWorld fs
    "https://dl.google.com/android/repository/android-ndk-r26b-darwin.dmg"
    config.root_dir
  simp only [build_package_urls, h, if_true, download_packages,
    tryJoinAllDownloads, hdp]

/-- C9 witness: a concrete NDK request against a dead network fails. -/
theorem C9_ndk_path_never_succeeds_witness :
    rustStartsWith "android-ndk" configNdk.package_name = true ∧
    (build_package_urls wDead fs0 configNdk "http://m1").1 = false :=
  ⟨by decide,
   C9_ndk_path_never_succeeds wDead fs0 configNdk "http://m1" (by decide)⟩

/-! ## C2 — batch download is fail-fast, not run-to-completion -/

/-- Claim C2 (amended): `download_packages` surfaces the first failing
task's error, wrapped; the tasks before it have completed (and their
writes are in the resulting filesystem), while the tasks after it are
cancelled by `try_join_all` and contribute nothing — in particular their
files are not written. -/
theorem C2_try_join_all_fail_fast (w : World) (fs fs₁ : FileSys)
    (pre rest : List (String × String × String)) (url root md5 e : String)
    (hpre : tryJoinAllDownloads w fs pre = (.ok (), fs₁))
    (hfail : (download_package w fs₁ url root md5).1 = .error e) :
    download_packages w fs (pre ++ (url, root, md5) :: rest) =
      (.error ("Failed to download packages: " ++ e),
       (download_package w fs₁ url root md5).2) := by
  have key : ∀ (pre : List (String × String × String)) (fs : FileSys),
      tryJoinAllDownloads w fs pre = (.ok (), fs₁) →
      tryJoinAllDownloads w fs (pre ++ (url, root, md5) :: rest) =
        (.error e, (download_package w fs₁ url root md5).2) := by
    intro pre
    induction pre with
    | nil =>
      intro fs h0
      have hfs : fs = fs₁ := by
        simpa only [tryJoinAllDownloads, Prod.mk.injEq, true_and] using h0
      subst hfs
      rw [List.nil_append]
      cases hdp : download_package w fs url root md5 with
      | mk r fsx =>
        rw [hdp] at hfail
        simp only at hfail
        subst hfail
        simp only [tryJoinAllDownloads, hdp]
    | cons t ts ih =>
      intro fs h0
      cases hdp : download_package w fs t.1 t.2.1 t.2.2 with
      | mk r fsx =>
        cases r with
        | error e' =>
          rw [tryJoinAllDownloads.eq_def] at h0
          simp only [hdp] at h0
          cases h0
        | ok u =>
          rw [tryJoinAllDownloads.eq_def] at h0
          simp only [hdp] at h0
          have := ih fsx h0
          rw [List.cons_append, tryJoinAllDownloads.eq_def]
          simp only [hdp]
          exact this
  unfold download_packages
  rw [key pre fs hpre]

/-- C2 witness: one successful task, then a failing one, then a cancelled
one. -/
theorem C2_try_join_all_fail_fast_witness :
    tryJoinAllDownloads wOkEmpty fs0 [("http://a/f1", "/d", emptyMd5)] =
      (.ok (), (download_package wOkEmpty fs0 "http://a/f1" "/d" emptyMd5).2) ∧
    (download_package wOkEmpty
      (download_package wOkEmpty fs0 "http://a/f1" "/d" emptyMd5).2
      "http://a/f2" "/d" "bad").1 =
      .error ("MD5 checksum mismatch. Expected: bad, got: " ++ emptyMd5) ∧
    download_packages wOkEmpty fs0
      [("http://a/f1", "/d", emptyMd5), ("http://a/f2", "/d", "bad"),
       ("http://a/f3", "/d", emptyMd5)] =
      (.error ("Failed to download packages: " ++
        ("MD5 checksum mismatch. Expected: bad, got: " ++ emptyMd5)),
       (download_package wOkEmpty
        (download_package wOkEmpty fs0 "http://a/f1" "/d" emptyMd5).2
        "http://a/f2" "/d" "bad").2) := by
  refine ⟨?_, ?_, ?_⟩
  · show tryJoinAllDownloads _ _ _ = _
    decide
  · decide
  · exact C2_try_join_all_fail_fast wOkEmpty fs0
      (download_package wOkEmpty fs0 "http://a/f1" "/d" emptyMd5).2
      [("http://a/f1", "/d", emptyMd5)] [("http://a/f3", "/d", emptyMd5)]
      "http://a/f2" "/d" "bad"
      ("MD5 checksum mismatch. Expected: bad, got: " ++ emptyMd5)
      (by decide) (by decide)

/-- C2 counterexample: in a 2-task batch whose first task has a wrong
digest and whose second task would verify correctly, the batch fails but
the second task's file is NOT written — `try_join_all` cancels it, so the
claimed N−1 files on disk do not materialise. -/
theorem C2_remaining_task_file_not_written :
    (download_package wOkEmpty fs0 "http://a/f2" "/d" emptyMd5).1 = .ok () ∧
    (download_packages wOkEmpty fs0
      [("http://a/f1", "/d", "bad"), ("http://a/f2", "/d", emptyMd5)]).1 =
      .error ("Failed to download packages: " ++
        ("MD5 checksum mismatch. Expected: bad, got: " ++ emptyMd5)) ∧
    (download_packages wOkEmpty fs0
      [("http://a/f1", "/d", "bad"), ("http://a/f2", "/d", emptyMd5)]).2.files
      = [] := by
  refine ⟨?_, ?_, ?_⟩ <;> decide

/-! ## Parser lemmas: one rendered line -/

theorem string_mk_data (s : String) : String.mk s.data = s := rfl

theorem keyOK_no_colon (k : String) (h : keyOK k = true) : ':' ∉ k.data := by
  simp only [keyOK, Bool.and_eq_true, Bool.not_eq_true'] at h
  intro hc
  have hm : k.data.contains ':' = true := by
    simpa using hc
  rw [h.1] at hm
  exact absurd hm (by decide)

theorem keyOK_head (k : String) (h : keyOK k = true) :
    k.data.head? ≠ some ' ' := by
  simp only [keyOK, Bool.and_eq_true, Bool.not_eq_true'] at h
  intro hc
  rw [hc] at h
  have h2 := h.2
  simp at h2

theorem render_data (k v : String) :
    (k ++ ": " ++ v).data = k.data ++ ':' :: ' ' :: v.data := by
  rw [String.data_append, String.data_append]
  simp

theorem splitOnce_no_colon (ks vs : List Char) (hk : ':' ∉ ks) :
    splitOnceColonSpace (ks ++ ':' :: ' ' :: vs) = some (ks, vs) := by
  induction ks with
  | nil => simp [splitOnceColonSpace]
  | cons c cs ih =>
    have hc : ¬c = ':' := fun h => hk (h ▸ List.mem_cons_self c cs)
    have hcs : ':' ∉ cs := fun h => hk (List.mem_cons_of_mem c h)
    cases cs with
    | nil =>
      simp [splitOnceColonSpace, hc]
    | cons c2 cs2 =>
      rw [List.cons_append, List.cons_append, splitOnceColonSpace]
      rw [← List.cons_append]
      simp only [hc, false_and, if_false, ih hcs]

theorem render_ne_empty (k v : String) : k ++ ": " ++ v ≠ "" := by
  intro h
  have := congrArg String.data h
  rw [render_data] at this
  exact absurd this (by simp)

theorem render_no_leading_space (k v : String) (h : keyOK k = true) :
    startsWithChars [' '] (k ++ ": " ++ v).data = false := by
  rw [render_data]
  cases hk : k.data with
  | nil => simp [startsWithChars]
  | cons c cs =>
    have hc : c ≠ ' ' := by
      have hh := keyOK_head k h
      rw [hk] at hh
      simp only [List.head?_cons] at hh
      intro he
      exact hh (by rw [he])
    rw [List.cons_append, startsWithChars]
    have hfalse : (' ' = c) = False := eq_false (fun hh => hc hh.symm)
    simp [startsWithChars, hfalse]

/-- Effect of one rendered `Key: Value` line on the parse state. -/
theorem parseLine_render (k v : String) (hok : keyOK k = true)
    (pkgs : List (String × PackageInfo)) (cp : Option String)
    (info : List (String × String)) :
    parseLine ⟨pkgs, cp, info⟩ (k ++ ": " ++ v) =
      ⟨pkgs, if k = "Package" then some v else cp, insertA info k v⟩ := by
  unfold parseLine
  rw [if_neg (render_ne_empty k v)]
  rw [if_neg (by rw [render_no_leading_space k v hok]; exact fun h => absurd h (by simp))]
  rw [render_data, splitOnce_no_colon k.data v.data (keyOK_no_colon k hok)]

/-! ## Parser lemmas: stanzas -/

/-- Folding the parser over one rendered stanza accumulates the
last-write-wins name and field map and touches no packages. -/
theorem stanza_fold (s : Stanza) (hok : stanzaOK s = true) :
    ∀ (pkgs : List (String × PackageInfo)) (cp : Option String)
      (info : List (String × String)),
    (renderStanza s).foldl parseLine ⟨pkgs, cp, info⟩ =
      ⟨pkgs, lastValFrom cp s "Package", infoAfter info s⟩ := by
  induction s with
  | nil => intro pkgs cp info; rfl
  | cons kv s ih =>
    intro pkgs cp info
    obtain ⟨k, v⟩ := kv
    simp only [stanzaOK, List.all_cons, Bool.and_eq_true] at hok
    rw [show renderStanza ((k, v) :: s) = (k ++ ": " ++ v) :: renderStanza s
        from rfl,
      List.foldl_cons, parseLine_render k v hok.1,
      ih (by simp [stanzaOK, hok.2])]
    rfl

/-- One whole stanza block (lines plus blank separator) maps
`⟨pkgs, none, []⟩` to `⟨finalizeStanza pkgs s, none, []⟩`. -/
theorem stanza_block (s : Stanza) (hok : stanzaOK s = true)
    (pkgs : List (String × PackageInfo)) :
    (renderStanza s ++ [""]).foldl parseLine ⟨pkgs, none, []⟩ =
      ⟨finalizeStanza pkgs s, none, []⟩ := by
  rw [List.foldl_append, stanza_fold s hok pkgs none []]
  show parseLine _ "" = _
  unfold parseLine
  rw [if_pos rfl]
  rfl

/-- The whole parse of a rendered stanza sequence is the fold of the
per-stanza effects. -/
theorem parse_stanzas (ss : List Stanza)
    (hok : ∀ s ∈ ss, stanzaOK s = true) :
    parsePackagesLines (stanzasLines ss) = ss.foldl finalizeStanza [] := by
  have aux : ∀ (ss : List Stanza), (∀ s ∈ ss, stanzaOK s = true) →
      ∀ pkgs, (stanzasLines ss).foldl parseLine ⟨pkgs, none, []⟩ =
        ⟨ss.foldl finalizeStanza pkgs, none, []⟩ := by
    intro ss
    induction ss with
    | nil => intro _ pkgs; rfl
    | cons s rest ih =>
      intro hok pkgs
      rw [stanzasLines, List.foldl_append,
        stanza_block s (hok s (List.mem_cons_self s rest)) pkgs]
      exact ih (fun s' hs => hok s' (List.mem_cons_of_mem s hs))
        (finalizeStanza pkgs s)
  rw [parsePackagesLines, aux ss hok []]
  rfl

/-! ## Parser lemmas: field lookup and record creation -/

theorem lookupA_insertA {α : Type} (m : List (String × α)) (k k' : String)
    (v : α) :
    lookupA (insertA m k v) k' = if k = k' then some v else lookupA m k' := by
  induction m with
  | nil =>
    simp only [insertA, lookupA]
  | cons p rest ih =>
    obtain ⟨a, b⟩ := p
    by_cases hak : a = k
    · subst hak
      simp only [insertA, if_pos rfl, lookupA]
      by_cases hk' : a = k' <;> simp [hk']
    · simp only [insertA, if_neg hak, lookupA]
      by_cases hk' : a = k'
      · subst hk'
        have : ¬k = a := fun h => hak h.symm
        simp [this]
      · simp [hk', ih]

theorem lookupA_infoAfter (s : Stanza) (k : String) :
    ∀ m, lookupA (infoAfter m s) k = lastValFrom (lookupA m k) s k := by
  induction s with
  | nil => intro m; rfl
  | cons kv rest ih =>
    intro m
    obtain ⟨a, b⟩ := kv
    show lookupA (infoAfter (insertA m a b) rest) k = _
    rw [ih (insertA m a b), lookupA_insertA]
    rfl

theorem lookupA_infoAfter_nil (s : Stanza) (k : String) :
    lookupA (infoAfter [] s) k = lastVal s k :=
  lookupA_infoAfter s k []

/-- With the six non-name required fields present and `Size` parseable,
`create_package_info` builds exactly the record of the stanza's last
values. -/
theorem create_package_info_of_required (s : Stanza) (name : String)
    (hreq : requiredOK s = true) :
    create_package_info name (infoAfter [] s) =
      .ok ⟨name, (lastVal s "Version").getD "",
        (lastVal s "Architecture").getD "",
        (lastVal s "Filename").getD "",
        ((lastVal s "Size").bind parseU64).getD 0,
        (lastVal s "MD5sum").getD "", (lastVal s "SHA256").getD ""⟩ := by
  simp only [requiredOK, Bool.and_eq_true] at hreq
  obtain ⟨⟨⟨⟨⟨hver, harch⟩, hfn⟩, hsz⟩, hmd5⟩, hsha⟩ := hreq
  obtain ⟨ver, hv⟩ := Option.isSome_iff_exists.mp hver
  obtain ⟨arch, ha⟩ := Option.isSome_iff_exists.mp harch
  obtain ⟨fn, hf⟩ := Option.isSome_iff_exists.mp hfn
  obtain ⟨md5v, hm⟩ := Option.isSome_iff_exists.mp hmd5
  obtain ⟨sha, hs⟩ := Option.isSome_iff_exists.mp hsha
  cases hszv : lastVal s "Size" with
  | none => rw [hszv] at hsz; cases hsz
  | some t =>
    rw [hszv] at hsz
    obtain ⟨n, hn⟩ := Option.isSome_iff_exists.mp hsz
    simp [create_package_info, lookupA_infoAfter_nil, hv, ha, hf, hszv, hn,
      hm, hs]

/-- With a required field missing or `Size` unparseable,
`create_package_info` fails. -/
theorem create_package_info_fails (s : Stanza) (name : String)
    (hreq : requiredOK s = false) :
    ∃ e, create_package_info name (infoAfter [] s) = .error e := by
  cases hv : lastVal s "Version" with
  | none =>
    exact ⟨"Missing Version",
      by simp [create_package_info, lookupA_infoAfter_nil, hv]⟩
  | some ver =>
  cases ha : lastVal s "Architecture" with
  | none =>
    exact ⟨"Missing Architecture",
      by simp [create_package_info, lookupA_infoAfter_nil, hv, ha]⟩
  | some arch =>
  cases hf : lastVal s "Filename" with
  | none =>
    exact ⟨"Missing Filename",
      by simp [create_package_info, lookupA_infoAfter_nil, hv, ha, hf]⟩
  | some fn =>
  cases hsz : lastVal s "Size" with
  | none =>
    exact ⟨"Missing Size",
      by simp [create_package_info, lookupA_infoAfter_nil, hv, ha, hf, hsz]⟩
  | some t =>
  cases hp : parseU64 t with
  | none =>
    exact ⟨"Invalid Size",
      by simp [create_package_info, lookupA_infoAfter_nil, hv, ha, hf, hsz,
        hp]⟩
  | some n =>
  cases hm : lastVal s "MD5sum" with
  | none =>
    exact ⟨"Missing MD5sum",
      by simp [create_package_info, lookupA_infoAfter_nil, hv, ha, hf, hsz,
        hp, hm]⟩
  | some md5v =>
  cases hs : lastVal s "SHA256" with
  | none =>
    exact ⟨"Missing SHA256",
      by simp [create_package_info, lookupA_infoAfter_nil, hv, ha, hf, hsz,
        hp, hm, hs]⟩
  | some sha =>
    exfalso
    have : requiredOK s = true := by
      simp [requiredOK, hv, ha, hf, hsz, hp, hm, hs]
    rw [this] at hreq
    cases hreq

/-- An emitting stanza inserts exactly its record under its name. -/
theorem finalizeStanza_emits (pkgs : List (String × PackageInfo))
    (s : Stanza) (hname : hasName s = true) (hreq : requiredOK s = true) :
    finalizeStanza pkgs s = insertA pkgs (nameOf s) (recordOf s) := by
  obtain ⟨n, hn⟩ := Option.isSome_iff_exists.mp hname
  show finalizeCurrent pkgs (lastValFrom none s "Package") (infoAfter [] s)
    = _
  rw [show lastValFrom none s "Package" = lastVal s "Package" from rfl, hn,
    finalizeCurrent, create_package_info_of_required s n hreq]
  simp only [nameOf, recordOf, hn, Option.getD_some]

/-- A non-emitting stanza leaves the package map untouched. -/
theorem finalizeStanza_drops (pkgs : List (String × PackageInfo))
    (s : Stanza) (h : emits s = false) :
    finalizeStanza pkgs s = pkgs := by
  simp only [emits, Bool.and_eq_false_iff] at h
  show finalizeCurrent pkgs (lastValFrom none s "Package") (infoAfter [] s)
    = _
  rw [show lastValFrom none s "Package" = lastVal s "Package" from rfl]
  rcases h with hn | hreq
  · cases hv : lastVal s "Package" with
    | none => rfl
    | some n =>
      rw [hasName, hv] at hn
      cases hn
  · cases hv : lastVal s "Package" with
    | none => rfl
    | some n =>
      obtain ⟨e, he⟩ := create_package_info_fails s n hreq
      rw [finalizeCurrent, he]

/-- Inserting a fresh key appends the binding. -/
theorem insertA_fresh {α : Type} (m : List (String × α)) (k : String)
    (v : α) (h : k ∉ m.map Prod.fst) :
    insertA m k v = m ++ [(k, v)] := by
  induction m with
  | nil => rfl
  | cons p rest ih =>
    obtain ⟨a, b⟩ := p
    have hak : ¬a = k := by
      intro hc
      exact h (by simp [hc])
    simp only [insertA, if_neg hak, List.cons_append, List.cons.injEq,
      true_and]
    exact ih (fun hc => h (by simp; right; simpa using hc))

/-! ## C5 — well-formed stanzas parse to their records -/

/-- Claim C5 (amended): for a sequence of renderable stanzas that all
carry the seven required fields with parseable `Size`, and whose `Package`
names are pairwise distinct, the parse result is exactly one record per
stanza, in order, whose fields equal the stanza's last-bound values.
(Without the distinctness proviso a later stanza overwrites an earlier one
sharing its name.) -/
theorem C5_parse_wellformed_stanzas (ss : List Stanza)
    (hok : ∀ s ∈ ss, stanzaOK s = true)
    (hemit : ∀ s ∈ ss, emits s = true)
    (hnodup : (ss.map nameOf).Nodup) :
    parsePackagesLines (stanzasLines ss) =
      ss.map (fun s => (nameOf s, recordOf s)) := by
  rw [parse_stanzas ss hok]
  have aux : ∀ (ss : List Stanza) (pkgs : List (String × PackageInfo)),
      (∀ s ∈ ss, emits s = true) →
      (ss.map nameOf).Nodup →
      (∀ s ∈ ss, nameOf s ∉ pkgs.map Prod.fst) →
      ss.foldl finalizeStanza pkgs =
        pkgs ++ ss.map (fun s => (nameOf s, recordOf s)) := by
    intro ss
    induction ss with
    | nil => intro pkgs _ _ _; simp
    | cons s rest ih =>
      intro pkgs hemit hnodup hfresh
      have hse : emits s = true := hemit s (List.mem_cons_self s rest)
      simp only [emits, Bool.and_eq_true] at hse
      rw [List.foldl_cons, finalizeStanza_emits pkgs s hse.1 hse.2,
        insertA_fresh pkgs (nameOf s) (recordOf s)
          (hfresh s (List.mem_cons_self s rest))]
      rw [List.map_cons, List.nodup_cons] at hnodup
      rw [ih (pkgs ++ [(nameOf s, recordOf s)])
        (fun s' hs => hemit s' (List.mem_cons_of_mem s hs))
        hnodup.2 ?_]
      · simp
      · intro s' hs'
        rw [List.map_append, List.mem_append]
        rintro (hc | hc)
        · exact hfresh s' (List.mem_cons_of_mem s hs') hc
        · simp only [List.map_cons, List.map_nil, List.mem_singleton] at hc
          exact hnodup.1 (hc ▸ List.mem_map_of_mem nameOf hs')
  have := aux ss [] hemit hnodup (by intro s _; simp)
  rw [this]
  rfl

/-- C5 witness: two distinct well-formed stanzas parse to exactly their
two records. -/
theorem C5_parse_wellformed_stanzas_witness :
    (∀ s ∈ [stFoo1, stBar], stanzaOK s = true) ∧
    (∀ s ∈ [stFoo1, stBar], emits s = true) ∧
    ([stFoo1, stBar].map nameOf).Nodup ∧
    parsePackagesLines (stanzasLines [stFoo1, stBar]) =
      [stFoo1, stBar].map (fun s => (nameOf s, recordOf s)) :=
  ⟨by decide, by decide, by decide,
   C5_parse_wellformed_stanzas [stFoo1, stBar] (by decide) (by decide)
     (by decide)⟩

/-- C5 counterexample: two well-formed stanzas sharing the name `foo`
parse to a single record — the later stanza's — so the first stanza does
not contribute a record with its values, refuting the unconditional
one-record-per-stanza claim. -/
theorem C5_duplicate_name_overwrites :
    parsePackagesLines (stanzasLines [stFoo1, stFoo2]) =
      [("foo", ⟨"foo", "2.0", "arm64", "pool/f/foo2.deb", 11, "aa", "bb"⟩)] ∧
    ("foo", fooRec) ∉ parsePackagesLines (stanzasLines [stFoo1, stFoo2]) ∧
    fooRec = recordOf stFoo1 := by
  exact ⟨by decide, by decide, by decide⟩

/-! ## C6 — malformed stanzas are dropped without affecting the rest -/

/-- Claim C6: stanzas that do not emit a record (missing required field or
unparseable `Size`) are silently omitted: the parse of any renderable
stanza sequence equals the parse of the same sequence with the
non-emitting stanzas removed, so a malformed stanza never aborts the parse
nor changes what other stanzas produce. -/
theorem C6_malformed_stanza_dropped (ss : List Stanza)
    (hok : ∀ s ∈ ss, stanzaOK s = true) :
    parsePackagesLines (stanzasLines ss) =
      parsePackagesLines (stanzasLines (ss.filter emits)) := by
  rw [parse_stanzas ss hok,
    parse_stanzas (ss.filter emits)
      (fun s hs => hok s (List.mem_of_mem_filter hs))]
  have aux : ∀ (ss : List Stanza) (pkgs : List (String × PackageInfo)),
      ss.foldl finalizeStanza pkgs =
        (ss.filter emits).foldl finalizeStanza pkgs := by
    intro ss
    induction ss with
    | nil => intro pkgs; rfl
    | cons s rest ih =>
      intro pkgs
      by_cases he : emits s = true
      · rw [List.foldl_cons, List.filter_cons_of_pos he, List.foldl_cons, ih]
      · have he' : emits s = false := by simpa using he
        rw [List.foldl_cons, finalizeStanza_drops pkgs s he',
          List.filter_cons_of_neg (by simp [he']), ih]
  exact aux ss []

/-- C6 witness: a malformed stanza followed by a well-formed one parses
the same as the well-formed one alone. -/
theorem C6_malformed_stanza_dropped_witness :
    (∀ s ∈ [stBad, stFoo1], stanzaOK s = true) ∧
    emits stBad = false ∧ emits stFoo1 = true ∧
    parsePackagesLines (stanzasLines [stBad, stFoo1]) =
      parsePackagesLines (stanzasLines ([stBad, stFoo1].filter emits)) :=
  ⟨by decide, by decide, by decide,
   C6_malformed_stanza_dropped [stBad, stFoo1] (by decide)⟩

/-! ## C8 — mirrors are tried in order, stopping at the first success -/

/-- When both components fail, the index fetch reports the
index-unavailable error. -/
theorem dpf_both_none (fetchGz : String → Option String)
    (mirror arch : String)
    (hm : fetchGz (componentUrl mirror "main" arch) = none)
    (hu : fetchGz (componentUrl mirror "universe" arch) = none) :
    download_packages_file fetchGz mirror arch =
      .error "Failed to download Packages.gz from any component" := by
  unfold download_packages_file
  simp [hm, hu]

/-- Claim C8: with mirror 1's index fetch failing on both components and
mirror 2 resolving and downloading successfully, the install loop succeeds
using mirror 2's artifact and attempts exactly mirrors 1 and 2 — later
mirrors are never attempted. -/
theorem C8_mirror_iteration_stops_at_success (w : NetWorld) (fs : FileSys)
    (config : InstallConfig) (m1 m2 : String) (rest : List String)
    (content : String) (info : PackageInfo)
    (hndk : rustStartsWith "android-ndk" config.package_name = false)
    (h1main : w.fetchGz (componentUrl m1 "main" config.architecture) = none)
    (h1univ : w.fetchGz (componentUrl m1 "universe" config.architecture)
      = none)
    (h2fetch : download_packages_file w.fetchGz m2 config.architecture =
      .ok content)
    (h2find : find_package (parse_packages_file content)
      config.package_name config.architecture = some info)
    (h2dl : (download_package w.toWorld fs (m2 ++ "/" ++ info.filename)
      config.root_dir info.md5sum).1 = .ok ()) :
    installLoop w fs config (m1 :: m2 :: rest) =
      (true, [m1, m2],
       (download_package w.toWorld fs (m2 ++ "/" ++ info.filename)
         config.root_dir info.md5sum).2) := by
  have hb1 : build_package_urls w fs config m1 = (false, fs) := by
    simp only [build_package_urls, hndk, Bool.false_eq_true, if_false,
      dpf_both_none w.fetchGz m1 config.architecture h1main h1univ]
  have hb2 : build_package_urls w fs config m2 =
      (true,
       (download_package w.toWorld fs (m2 ++ "/" ++ info.filename)
         config.root_dir info.md5sum).2) := by
    cases hdp : download_package w.toWorld fs (m2 ++ "/" ++ info.filename)
      config.root_dir info.md5sum with
    | mk r fsx =>
      rw [hdp] at h2dl
      simp only at h2dl
      subst h2dl
      simp only [build_package_urls, hndk, Bool.false_eq_true, if_false,
        h2fetch, h2find, hdp]
  simp only [installLoop, hb1, hb2]

/-- C8 witness: the concrete two-good-of-three-mirrors scenario. -/
theorem C8_mirror_iteration_stops_at_success_witness :
    w8.fetchGz (componentUrl "http://m1" "main" config8.architecture)
      = none ∧
    download_packages_file w8.fetchGz "http://m2" config8.architecture =
      .ok (idxText ++ "\n") ∧
    find_package (parse_packages_file (idxText ++ "\n"))
      config8.package_name config8.architecture = some fooRec ∧
    installLoop w8 fs0 config8 config8.mirrors =
      (true, ["http://m1", "http://m2"],
       (download_package w8.toWorld fs0
         ("http://m2" ++ "/" ++ fooRec.filename) config8.root_dir
         fooRec.md5sum).2) :=
  ⟨by decide, by decide, by decide,
   C8_mirror_iteration_stops_at_success w8 fs0 config8 "http://m1"
     "http://m2" ["http://m3"] (idxText ++ "\n") fooRec (by decide)
     (by decide) (by decide) (by decide) (by decide) (by decide)⟩

end MiniApt
